import Mathlib

/-!
Verification of the shared-secret creation flow of
`frontend/src/views/ShareSecretPage/components/AddShareSecretModal.tsx`
(Infisical secret sharing), together with the redemption state machine
described by the design document.

The TypeScript component is embedded shallowly:
* `crypto.randomBytes(16).toString("hex")` becomes `hexEncode` applied to an
  injected list of bytes (the randomness source is an explicit dependency);
* `crypto.createHash("sha256")` and `encryptSymmetric` are injected as
  function parameters `h` and `enc` (they are external to this component);
* JavaScript `Date` is modelled as milliseconds since the Unix epoch (UTC),
  with `setMinutes`/`setHours`/`setDate` given their normalising semantics
  through a proleptic-Gregorian civil calendar;
* the `yup` schema becomes `validate`, the mutation argument of
  `createSharedSecret.mutateAsync` becomes `CreateSharedSecretRequest`, and
  the template string for the link becomes `buildLink`.
-/

/-- Lowercase hex digit for a value below 16, as produced by Node's
`Buffer.toString("hex")`. -/
def hexDigitChar (n : Nat) : Char :=
  if n < 10 then Char.ofNat (48 + n) else Char.ofNat (97 + (n - 10))

/-- Uppercase hex digit, as produced by JavaScript percent-encoding. -/
def hexDigitCharUpper (n : Nat) : Char :=
  if n < 10 then Char.ofNat (48 + n) else Char.ofNat (65 + (n - 10))

/-- Character class of lowercase hex digits (the alphabet of
`Buffer.toString("hex")` and of Node's hex SHA-256 digests). -/
def isLowerHexDigit (c : Char) : Bool :=
  (48 ≤ c.toNat && c.toNat ≤ 57) || (97 ≤ c.toNat && c.toNat ≤ 102)

/-- Two hex characters of one byte, high nibble first. -/
def hexByte (b : Nat) : List Char :=
  [hexDigitChar (b / 16), hexDigitChar (b % 16)]

/-- Characters of the hex encoding of a byte list. -/
def hexChars : List Nat → List Char
  | [] => []
  | b :: bs => hexByte b ++ hexChars bs

/-- Hex encoding of a byte list, modelling `Buffer.toString("hex")`. -/
def hexEncode (bs : List Nat) : String :=
  ⟨hexChars bs⟩

/-- Characters the ECMAScript `encodeURIComponent` leaves unescaped:
`A-Z a-z 0-9 - _ . ! ~ * ' ( )`. -/
def isUriUnescaped (c : Char) : Bool :=
  (65 ≤ c.toNat && c.toNat ≤ 90) || (97 ≤ c.toNat && c.toNat ≤ 122) ||
  (48 ≤ c.toNat && c.toNat ≤ 57) ||
  c.toNat == 45 || c.toNat == 95 || c.toNat == 46 || c.toNat == 33 ||
  c.toNat == 126 || c.toNat == 42 || c.toNat == 39 || c.toNat == 40 || c.toNat == 41

/-- UTF-8 bytes of a Unicode code point. -/
def utf8Bytes (n : Nat) : List Nat :=
  if n < 128 then [n]
  else if n < 2048 then [192 + n / 64, 128 + n % 64]
  else if n < 65536 then [224 + n / 4096, 128 + n / 64 % 64, 128 + n % 64]
  else [240 + n / 262144, 128 + n / 4096 % 64, 128 + n / 64 % 64, 128 + n % 64]

/-- Percent-escape of one byte: `%XY` with uppercase hex. -/
def percentByte (b : Nat) : List Char :=
  ['%', hexDigitCharUpper (b / 16), hexDigitCharUpper (b % 16)]

/-- Encoding of one character under `encodeURIComponent`. -/
def encodeChar (c : Char) : List Char :=
  if isUriUnescaped c then [c] else ((utf8Bytes c.toNat).map percentByte).flatten

/-- Model of ECMAScript `encodeURIComponent`. -/
def encodeURIComponent (s : String) : String :=
  ⟨(s.data.map encodeChar).flatten⟩

/-- Proleptic Gregorian calendar date. -/
structure CivilDate where
  year : Nat
  month : Nat
  day : Nat
deriving DecidableEq

/-- Serial day number of a civil date (days since 0000-03-01 era base;
1970-01-01 is day 719468), following the standard civil-calendar algorithm. -/
def dayNumber (c : CivilDate) : Nat :=
  let y := if c.month ≤ 2 then c.year - 1 else c.year
  let era := y / 400
  let yoe := y % 400
  let mp := if 2 < c.month then c.month - 3 else c.month + 9
  let doy := (153 * mp + 2) / 5 + c.day - 1
  let doe := yoe * 365 + yoe / 4 - yoe / 100 + doy
  era * 146097 + doe

/-- Civil date of a serial day number (inverse of `dayNumber` on valid dates). -/
def civilOfDayNumber (z : Nat) : CivilDate :=
  let era := z / 146097
  let doe := z % 146097
  let yoe := (doe - doe / 1460 + doe / 36524 - doe / 146096) / 365
  let y := yoe + era * 400
  let doy := doe - (365 * yoe + yoe / 4 - yoe / 100)
  let mp := (5 * doy + 2) / 153
  let d := doy - (153 * mp + 2) / 5 + 1
  let m := if mp < 10 then mp + 3 else mp - 9
  ⟨if m ≤ 2 then y + 1 else y, m, d⟩

/-- Day number of 1970-01-01, the epoch of JavaScript time values. -/
def epochDayNumber : Nat := 719468

/-- Milliseconds in one day. -/
def msPerDay : Nat := 86400000

/-- Civil date of a JavaScript time value (milliseconds since the epoch, UTC). -/
def civilOfMs (t : Nat) : CivilDate :=
  civilOfDayNumber (t / msPerDay + epochDayNumber)

/-- Model of `Date.prototype.getMinutes` (UTC reading of the time value). -/
def getMinutes (t : Nat) : Nat := t / 60000 % 60

/-- Model of `Date.prototype.setMinutes`: replaces the minutes field,
normalising overflow into hours/days, and returns the new time value. -/
def setMinutes (t : Nat) (x : Nat) : Nat :=
  t - getMinutes t * 60000 + x * 60000

/-- Model of `Date.prototype.getHours`. -/
def getHours (t : Nat) : Nat := t / 3600000 % 24

/-- Model of `Date.prototype.setHours`. -/
def setHours (t : Nat) (x : Nat) : Nat :=
  t - getHours t * 3600000 + x * 3600000

/-- Model of `Date.prototype.getDate` (day of month). -/
def getDate (t : Nat) : Nat := (civilOfMs t).day

/-- Model of `Date.prototype.setDate`: replaces the day-of-month field,
normalising overflow across month and year boundaries via the civil
calendar, and returns the new time value. -/
def setDate (t : Nat) (x : Nat) : Nat :=
  let c := civilOfMs t
  (dayNumber ⟨c.year, c.month, x⟩ - epochDayNumber) * msPerDay + t % msPerDay

/-- One entry of the component's `expirationUnitsAndActions` array: a unit
name paired with a `Date` mutator. JavaScript setters mutate the object and
return the new time value; with the date as an explicit time value the two
coincide, so an action is `time → value → new time`. -/
structure UnitAction where
  unit : String
  action : Nat → Nat → Nat

/-- The component's `expirationUnitsAndActions` array (source lines 30-51). -/
def expirationUnitsAndActions : List UnitAction := [
  ⟨"Minutes", fun t v => setMinutes t (getMinutes t + v)⟩,
  ⟨"Hours", fun t v => setHours t (getHours t + v)⟩,
  ⟨"Days", fun t v => setDate t (getDate t + v)⟩,
  ⟨"Weeks", fun t v => setDate t (getDate t + v * 7)⟩]

/-- Expiry computation of `onFormSubmit` (source lines 112-118): start from
`new Date()` (`now`), look the unit up with `find`, and apply the action only
when both the lookup succeeded and `expiresInValue` is truthy; otherwise the
date is left at `now`. -/
def computeExpiresAt (now : Nat) (unit : String) (v : Nat) : Nat :=
  match expirationUnitsAndActions.find? (fun a => a.unit == unit) with
  | some a => if v ≠ 0 then a.action now v else now
  | none => now

/-- Raw form input before `yup` validation; every field may be absent. -/
structure FormInput where
  value : Option String
  expiresAfterViews : Option Int
  expiresInValue : Option Int
  expiresInUnit : Option String

/-- Form data after successful validation (the `FormData` of the source). -/
structure FormData where
  value : String
  expiresAfterViews : Int
  expiresInValue : Int
  expiresInUnit : String
deriving DecidableEq

/-- Validation failures of the `yup` schema (source lines 53-58), one per
failing field check. -/
inductive ValidationError where
  | valueRequired
  | valueTooLong
  | invalidViews
  | invalidExpirationValue
  | unitRequired
deriving DecidableEq

/-- Check of `value: yup.string().max(10000).required()`. -/
def checkValue : Option String → Except ValidationError String
  | none => .error .valueRequired
  | some s =>
    if 10000 < s.length then .error .valueTooLong
    else if s = "" then .error .valueRequired
    else .ok s

/-- Check of `expiresAfterViews: yup.number().min(1).required()`. -/
def checkViews : Option Int → Except ValidationError Int
  | none => .error .invalidViews
  | some n => if n < 1 then .error .invalidViews else .ok n

/-- Check of `expiresInValue: yup.number().min(1).required()`. -/
def checkExpiresInValue : Option Int → Except ValidationError Int
  | none => .error .invalidExpirationValue
  | some n => if n < 1 then .error .invalidExpirationValue else .ok n

/-- Check of `expiresInUnit: yup.string().required()`. -/
def checkUnit : Option String → Except ValidationError String
  | none => .error .unitRequired
  | some u => if u = "" then .error .unitRequired else .ok u

/-- The `yup` schema resolver: the four field checks in declaration order,
stopping at the first failure. -/
def validate (i : FormInput) : Except ValidationError FormData :=
  match checkValue i.value with
  | .error e => .error e
  | .ok v =>
    match checkViews i.expiresAfterViews with
    | .error e => .error e
    | .ok views =>
      match checkExpiresInValue i.expiresInValue with
      | .error e => .error e
      | .ok ev =>
        match checkUnit i.expiresInUnit with
        | .error e => .error e
        | .ok u => .ok ⟨v, views, ev, u⟩

/-- Output of `encryptSymmetric` (ciphertext, nonce, authentication tag). -/
structure EncryptedPayload where
  ciphertext : String
  iv : String
  tag : String
deriving DecidableEq

/-- Argument of `createSharedSecret.mutateAsync` (source lines 120-127): the
data transmitted to the storage tier. `expiresAt` is typed as optional to
reflect the nullable field of the data model; this component always sends a
concrete date. -/
structure CreateSharedSecretRequest where
  encryptedValue : String
  iv : String
  tag : String
  hashedHex : String
  expiresAt : Option Nat
  expiresAfterViews : Int
deriving DecidableEq

/-- Key generation of `onFormSubmit` (source lines 105-106):
`key = crypto.randomBytes(16).toString("hex")` and
`hashedHex = sha256(key)` as a hex digest. The random bytes and the SHA-256
hex oracle `h` are injected dependencies; the result is
`(rawKey, verifier)`. -/
def generateKeyMaterial (h : String → String) (bytes : List Nat) : String × String :=
  let key := hexEncode bytes
  (key, h key)

/-- Link construction of `onFormSubmit` (source lines 128-132): the template
string
`` `${origin}/shared/secret/${id}?key=${encodeURIComponent(hashedHex)}-${encodeURIComponent(key)}` ``. -/
def buildLink (origin id hashedHex key : String) : String :=
  origin ++ "/shared/secret/" ++ id ++ "?key=" ++
    encodeURIComponent hashedHex ++ "-" ++ encodeURIComponent key

/-- Body of `onFormSubmit` after validation (source lines 97-132): generate
the key material, encrypt, compute the expiry, build the mutation argument
sent to storage, and build the share link shown to the user. `enc` is the
injected `encryptSymmetric`, `h` the SHA-256 hex oracle, `bytes` the drawn
random bytes, `now` the time value of `new Date()`, `id` the server-assigned
record identifier. -/
def onFormSubmit (enc : String → String → EncryptedPayload) (h : String → String)
    (bytes : List Nat) (now : Nat) (origin id : String) (fd : FormData) :
    CreateSharedSecretRequest × String :=
  let key := hexEncode bytes
  let hashedHex := h key
  let p := enc fd.value key
  let expiresAt := computeExpiresAt now fd.expiresInUnit fd.expiresInValue.toNat
  ({ encryptedValue := p.ciphertext, iv := p.iv, tag := p.tag,
     hashedHex := hashedHex, expiresAt := some expiresAt,
     expiresAfterViews := fd.expiresAfterViews },
   buildLink origin id hashedHex key)

/-- Full creation pipeline: the `yup` resolver gates `onFormSubmit`, so a
validation failure reaches the user before any key generation or
encryption. -/
def createShare (enc : String → String → EncryptedPayload) (h : String → String)
    (bytes : List Nat) (now : Nat) (origin id : String) (i : FormInput) :
    Except ValidationError (CreateSharedSecretRequest × String) :=
  (validate i).map (onFormSubmit enc h bytes now origin id)

/-- Duration units recognised by the component, as an enumeration. -/
inductive ExpirationUnit where
  | minutes
  | hours
  | days
  | weeks
deriving DecidableEq

/-- Unit name as it appears in the `expirationUnitsAndActions` array. -/
def ExpirationUnit.name : ExpirationUnit → String
  | .minutes => "Minutes"
  | .hours => "Hours"
  | .days => "Days"
  | .weeks => "Weeks"

/-- Pure mapping from enum variant to calendar-arithmetic function: the
specified reformulation of the duration-unit dispatch. It reads the current
time value and returns a new one; no date object is mutated. -/
def pureExpiry (now : Nat) (u : ExpirationUnit) (v : Nat) : Nat :=
  match u with
  | .minutes => setMinutes now (getMinutes now + v)
  | .hours => setHours now (getHours now + v)
  | .days => setDate now (getDate now + v)
  | .weeks => setDate now (getDate now + v * 7)

/-- Status of a stored share record. -/
inductive SecretStatus where
  | active
  | expired
  | exhausted
  | revoked
deriving DecidableEq

/-- Modelled from the spec: the `ShareRecord` persisted by `ShareRecordStore`
(design document section 3); the store itself is backend code absent from the
sources here. -/
structure ShareRecord where
  verifier : String
  expiresAt : Option Nat
  maxViews : Option Nat
  viewsConsumed : Nat
  status : SecretStatus
deriving DecidableEq

/-- Redemption failures of the store. -/
inductive RedemptionFailure where
  | notFound
  | expiredOrExhausted
  | verifierMismatch
deriving DecidableEq

/-- Modelled from the spec: the expiry test of step (2) of
`ShareRecordStore.redeem` — a record is past expiry when `expiresAt` is set
and lies strictly before `now`. -/
def isPastExpiry (now : Nat) (e : Option Nat) : Bool :=
  match e with
  | some t => decide (t < now)
  | none => false

/-- Modelled from the spec: the atomic `ShareRecordStore.redeem` step (design
document section 4.5), whose implementation is backend code absent from the
sources here. It fails when the status is not ACTIVE or the record is past
`expiresAt`, fails on a verifier mismatch, otherwise increments
`viewsConsumed` — transitioning to EXHAUSTED in the same step when the new
count reaches `maxViews` — and returns the pre-increment snapshot together
with the new stored state. -/
def redeem (now : Nat) (suppliedVerifier : String) (r : ShareRecord) :
    Except RedemptionFailure (ShareRecord × ShareRecord) :=
  if r.status ≠ .active then .error .expiredOrExhausted
  else if isPastExpiry now r.expiresAt then
    .error .expiredOrExhausted
  else if suppliedVerifier ≠ r.verifier then .error .verifierMismatch
  else
    let c := r.viewsConsumed + 1
    let st := match r.maxViews with
      | some m => if m ≤ c then SecretStatus.exhausted else .active
      | none => .active
    .ok (r, { r with viewsConsumed := c, status := st })

/-- Modelled from the spec: a serialisation of `k` redemption attempts of the
same record. The spec requires `redeem` to be one linearizable atomic step,
so any concurrent execution of `k` identical attempts is equivalent to this
sequential run; the result is the number of successes and the final stored
state. -/
def runRedemptions (now : Nat) (sv : String) : Nat → ShareRecord → Nat × ShareRecord
  | 0, r => (0, r)
  | k + 1, r =>
    match redeem now sv r with
    | .ok (_, r1) =>
      let p := runRedemptions now sv k r1
      (p.1 + 1, p.2)
    | .error _ =>
      let p := runRedemptions now sv k r
      (p.1, p.2)

/-- Both hex digit characters of a value below 16 are lowercase hex. -/
theorem hexDigitChar_isHex : ∀ n < 16, isLowerHexDigit (hexDigitChar n) = true := by
  decide

/-- Hex encoding yields two characters per byte. -/
theorem hexChars_length (bs : List Nat) : (hexChars bs).length = 2 * bs.length := by
  induction bs with
  | nil => rfl
  | cons b t ih => simp [hexChars, hexByte, ih]; ring

/-- Every character of the hex encoding of bytes below 256 is a lowercase hex
digit. -/
theorem hexChars_isHex (bs : List Nat) (hb : ∀ b ∈ bs, b < 256) :
    ∀ c ∈ hexChars bs, isLowerHexDigit c = true := by
  induction bs with
  | nil => intro c hc; cases hc
  | cons b t ih =>
    intro c hc
    have hb0 : b < 256 := hb b (by simp)
    rcases List.mem_append.mp hc with h1 | h2
    · have h1 : c = hexDigitChar (b / 16) ∨ c = hexDigitChar (b % 16) := by
        simpa [hexByte] using h1
      rcases h1 with h1 | h1 <;> subst h1
      · exact hexDigitChar_isHex (b / 16) (by omega)
      · exact hexDigitChar_isHex (b % 16) (by omega)
    · exact ih (fun x hx => hb x (by simp [hx])) c h2

/-- The hyphen is outside the lowercase hex alphabet. -/
theorem hyphen_not_hex : isLowerHexDigit '-' = false := by
  decide

/-- Lowercase hex digits are left unescaped by `encodeURIComponent`. -/
theorem hex_isUriUnescaped (c : Char) (h : isLowerHexDigit c = true) :
    isUriUnescaped c = true := by
  simp only [isLowerHexDigit, Bool.or_eq_true, Bool.and_eq_true, decide_eq_true_eq] at h
  simp only [isUriUnescaped, Bool.or_eq_true, Bool.and_eq_true, decide_eq_true_eq,
    Nat.beq_eq_true_eq]
  omega

/-- On a string of unescaped characters, `encodeURIComponent` is the
identity. -/
theorem encodeURIComponent_of_unescaped (s : String)
    (h : ∀ c ∈ s.data, isUriUnescaped c = true) : encodeURIComponent s = s := by
  have key : ∀ l : List Char, (∀ c ∈ l, isUriUnescaped c = true) →
      (l.map encodeChar).flatten = l := by
    intro l hl
    induction l with
    | nil => rfl
    | cons c t ih =>
      have hc : isUriUnescaped c = true := hl c (by simp)
      simp only [List.map_cons, List.flatten_cons, encodeChar, if_pos hc]
      simp [ih (fun x hx => hl x (by simp [hx]))]
  show String.mk (s.data.map encodeChar).flatten = s
  rw [key s.data h]

/-- C1: for every creation, the generated `rawKey` is the hex encoding of the
16 injected random bytes — 32 lowercase hex characters — and the `verifier`
is the injected SHA-256 hex digest applied to that `rawKey`, so
`verifier = sha256(rawKey)` holds for every validly constructed link. -/
theorem c1_keyMaterial (h : String → String) (bytes : List Nat)
    (hlen : bytes.length = 16) (hb : ∀ b ∈ bytes, b < 256) :
    (generateKeyMaterial h bytes).1.length = 32 ∧
    (∀ c ∈ (generateKeyMaterial h bytes).1.data, isLowerHexDigit c = true) ∧
    (generateKeyMaterial h bytes).2 = h (generateKeyMaterial h bytes).1 := by
  refine ⟨?_, ?_, rfl⟩
  · show (hexEncode bytes).length = 32
    show (hexChars bytes).length = 32
    rw [hexChars_length, hlen]
  · intro c hc
    exact hexChars_isHex bytes hb c hc

/-- Witness for C1 at concrete inputs. -/
theorem c1_keyMaterial_witness :
    (generateKeyMaterial (fun s => s) (List.replicate 16 0)).1.length = 32 ∧
    (∀ c ∈ (generateKeyMaterial (fun s => s) (List.replicate 16 0)).1.data,
      isLowerHexDigit c = true) ∧
    (generateKeyMaterial (fun s => s) (List.replicate 16 0)).2 =
      (fun s => s) (generateKeyMaterial (fun s => s) (List.replicate 16 0)).1 :=
  c1_keyMaterial (fun s => s) (List.replicate 16 0) (by decide) (by decide)

/-- C2: the emitted share link equals
`origin ++ "/shared/secret/" ++ id ++ "?key=" ++ percentEncode(verifier) ++ "-" ++ percentEncode(rawKey)`,
with the two components percent-encoded independently; moreover the
separator `-` lies outside the hex alphabet while every character of the
verifier and of the raw key lies inside it, so the separator occurs in
neither component. -/
theorem c2_linkFormat (enc : String → String → EncryptedPayload) (h : String → String)
    (bytes : List Nat) (now : Nat) (origin id : String) (fd : FormData)
    (hb : ∀ b ∈ bytes, b < 256)
    (hver : ∀ c ∈ (h (hexEncode bytes)).data, isLowerHexDigit c = true) :
    (onFormSubmit enc h bytes now origin id fd).2 =
      origin ++ "/shared/secret/" ++ id ++ "?key=" ++
        encodeURIComponent (h (hexEncode bytes)) ++ "-" ++
        encodeURIComponent (hexEncode bytes) ∧
    encodeURIComponent (h (hexEncode bytes)) = h (hexEncode bytes) ∧
    encodeURIComponent (hexEncode bytes) = hexEncode bytes ∧
    isLowerHexDigit '-' = false ∧
    '-' ∉ (h (hexEncode bytes)).data ∧ '-' ∉ (hexEncode bytes).data := by
  have hkeyhex : ∀ c ∈ (hexEncode bytes).data, isLowerHexDigit c = true :=
    fun c hc => hexChars_isHex bytes hb c hc
  refine ⟨rfl, ?_, ?_, hyphen_not_hex, ?_, ?_⟩
  · exact encodeURIComponent_of_unescaped _ (fun c hc => hex_isUriUnescaped c (hver c hc))
  · exact encodeURIComponent_of_unescaped _ (fun c hc => hex_isUriUnescaped c (hkeyhex c hc))
  · intro hmem
    have := hver _ hmem
    simp [hyphen_not_hex] at this
  · intro hmem
    have := hkeyhex _ hmem
    simp [hyphen_not_hex] at this

/-- Witness for C2 at concrete inputs. -/
theorem c2_linkFormat_witness :
    (onFormSubmit (fun v k => ⟨v ++ k, "iv0", "tag0"⟩) (fun _ => "ff00")
        (List.replicate 16 171) 1700000000000 "https://app.example" "rec1"
        ⟨"hello", 6, 6, "Minutes"⟩).2 =
      "https://app.example" ++ "/shared/secret/" ++ "rec1" ++ "?key=" ++
        encodeURIComponent ((fun _ => "ff00") (hexEncode (List.replicate 16 171))) ++ "-" ++
        encodeURIComponent (hexEncode (List.replicate 16 171)) ∧
    encodeURIComponent ((fun _ => "ff00") (hexEncode (List.replicate 16 171))) =
      (fun _ => "ff00") (hexEncode (List.replicate 16 171)) ∧
    encodeURIComponent (hexEncode (List.replicate 16 171)) = hexEncode (List.replicate 16 171) ∧
    isLowerHexDigit '-' = false ∧
    '-' ∉ (((fun _ => "ff00") (hexEncode (List.replicate 16 171))) : String).data ∧
    '-' ∉ (hexEncode (List.replicate 16 171)).data :=
  c2_linkFormat (fun v k => ⟨v ++ k, "iv0", "tag0"⟩) (fun _ => "ff00")
    (List.replicate 16 171) 1700000000000 "https://app.example" "rec1"
    ⟨"hello", 6, 6, "Minutes"⟩ (by decide) (by decide)

/-- C3: the argument transmitted to the storage tier is a function of the
ciphertext, the hashed verifier, the expiry inputs and the view limit alone:
two runs whose encryption outputs and hash outputs agree produce identical
requests even when their plaintexts and raw keys differ arbitrarily — the
raw key and the plaintext reach the outside of the creation scope only
through the share link string. -/
theorem c3_request_independent_of_secrets
    (enc enc' : String → String → EncryptedPayload) (h h' : String → String)
    (bytes bytes' : List Nat) (now : Nat) (origin origin' id id' : String)
    (fd fd' : FormData)
    (henc : enc fd.value (hexEncode bytes) = enc' fd'.value (hexEncode bytes'))
    (hh : h (hexEncode bytes) = h' (hexEncode bytes'))
    (hviews : fd.expiresAfterViews = fd'.expiresAfterViews)
    (hexp : fd.expiresInValue = fd'.expiresInValue)
    (hunit : fd.expiresInUnit = fd'.expiresInUnit) :
    (onFormSubmit enc h bytes now origin id fd).1 =
      (onFormSubmit enc' h' bytes' now origin' id' fd').1 := by
  simp only [onFormSubmit]
  rw [henc, hh, hviews, hexp, hunit]

/-- Witness for C3 at concrete inputs: the plaintexts and random bytes of the
two runs differ, yet the transmitted requests coincide. -/
theorem c3_request_independent_of_secrets_witness :
    (onFormSubmit (fun _ _ => ⟨"ct", "iv", "tg"⟩) (fun _ => "hh")
        (List.replicate 16 1) 1700000000000 "https://a" "i1"
        ⟨"hello", 6, 6, "Minutes"⟩).1 =
      (onFormSubmit (fun _ _ => ⟨"ct", "iv", "tg"⟩) (fun _ => "hh")
        (List.replicate 16 2) 1700000000000 "https://b" "i2"
        ⟨"other secret", 6, 6, "Minutes"⟩).1 :=
  c3_request_independent_of_secrets
    (fun _ _ => ⟨"ct", "iv", "tg"⟩) (fun _ _ => ⟨"ct", "iv", "tg"⟩)
    (fun _ => "hh") (fun _ => "hh")
    (List.replicate 16 1) (List.replicate 16 2) 1700000000000
    "https://a" "https://b" "i1" "i2"
    ⟨"hello", 6, 6, "Minutes"⟩ ⟨"other secret", 6, 6, "Minutes"⟩
    rfl rfl rfl rfl rfl

/-- The day-of-month produced by `civilOfDayNumber` is at least 1. -/
theorem civilOfDayNumber_day_pos (z : Nat) : 1 ≤ (civilOfDayNumber z).day := by
  simp only [civilOfDayNumber]
  omega

/-- Serial day numbers are additive in the day-of-month field. -/
theorem dayNumber_add (c : CivilDate) (v : Nat) (hd : 1 ≤ c.day) :
    dayNumber ⟨c.year, c.month, c.day + v⟩ = dayNumber c + v := by
  simp only [dayNumber]
  rcases le_or_lt c.month 2 with h | h
  · simp only [if_pos h, if_neg (Nat.not_lt.mpr h)]
    omega
  · simp only [if_neg (Nat.not_le.mpr h), if_pos h]
    omega

/-- In the UTC time-value model, `setMinutes(getMinutes() + v)` advances the
time by `v` minutes. -/
theorem setMinutes_add (t v : Nat) : setMinutes t (getMinutes t + v) = t + v * 60000 := by
  simp only [setMinutes, getMinutes]
  omega

/-- In the UTC time-value model, `setHours(getHours() + v)` advances the time
by `v` hours. -/
theorem setHours_add (t v : Nat) : setHours t (getHours t + v) = t + v * 3600000 := by
  simp only [setHours, getHours]
  omega

/-- `setDate(getDate() + v)` advances the time by `v` civil days, for every
time value whose civil date round-trips through `dayNumber` (true of every
actual date; checked by evaluation at witnesses). -/
theorem setDate_add (t v : Nat)
    (hrt : dayNumber (civilOfMs t) = t / msPerDay + epochDayNumber) :
    setDate t (getDate t + v) = t + v * msPerDay := by
  have hd := civilOfDayNumber_day_pos (t / msPerDay + epochDayNumber)
  simp only [setDate, getDate, civilOfMs] at hrt hd ⊢
  rw [dayNumber_add _ v hd, hrt]
  have hdm := Nat.div_add_mod t msPerDay
  simp only [msPerDay, epochDayNumber] at *
  omega

/-- C4: for each recognized unit and every value `v ≥ 1`, the computed expiry
is `now` advanced by exactly `v` of that unit: `v` minutes, `v` hours, `v`
civil days or `7·v` civil days, and for Days/Weeks the civil date of the
result is the civil date of `now` advanced by `v` (resp. `7·v`) calendar
days, crossing month boundaries per calendar arithmetic. -/
theorem c4_calendarExpiry (now v : Nat) (hv : 1 ≤ v)
    (hrt : dayNumber (civilOfMs now) = now / msPerDay + epochDayNumber) :
    computeExpiresAt now "Minutes" v = now + v * 60000 ∧
    computeExpiresAt now "Hours" v = now + v * 3600000 ∧
    computeExpiresAt now "Days" v = now + v * msPerDay ∧
    computeExpiresAt now "Weeks" v = now + v * 7 * msPerDay ∧
    civilOfMs (computeExpiresAt now "Days" v) =
      civilOfDayNumber (dayNumber (civilOfMs now) + v) ∧
    civilOfMs (computeExpiresAt now "Weeks" v) =
      civilOfDayNumber (dayNumber (civilOfMs now) + v * 7) := by
  have hv0 : v ≠ 0 := by omega
  have em : computeExpiresAt now "Minutes" v =
      if v ≠ 0 then setMinutes now (getMinutes now + v) else now := rfl
  have eh : computeExpiresAt now "Hours" v =
      if v ≠ 0 then setHours now (getHours now + v) else now := rfl
  have ed : computeExpiresAt now "Days" v =
      if v ≠ 0 then setDate now (getDate now + v) else now := rfl
  have ew : computeExpiresAt now "Weeks" v =
      if v ≠ 0 then setDate now (getDate now + v * 7) else now := rfl
  have hdays : computeExpiresAt now "Days" v = now + v * msPerDay := by
    rw [ed, if_pos hv0, setDate_add now v hrt]
  have hweeks : computeExpiresAt now "Weeks" v = now + v * 7 * msPerDay := by
    rw [ew, if_pos hv0, setDate_add now (v * 7) hrt]
  refine ⟨?_, ?_, hdays, hweeks, ?_, ?_⟩
  · rw [em, if_pos hv0, setMinutes_add]
  · rw [eh, if_pos hv0, setHours_add]
  · rw [hdays, hrt]
    simp only [civilOfMs]
    congr 1
    simp only [msPerDay, epochDayNumber]
    omega
  · rw [hweeks, hrt]
    simp only [civilOfMs]
    congr 1
    simp only [msPerDay, epochDayNumber]
    omega

/-- Witness for C4 at 2024-01-20T00:00:00 UTC with `v = 30`: in particular
adding 30 days crosses the month boundary to 2024-02-19, as calendar
arithmetic requires. -/
theorem c4_calendarExpiry_witness :
    (computeExpiresAt 1705708800000 "Minutes" 30 = 1705708800000 + 30 * 60000 ∧
    computeExpiresAt 1705708800000 "Hours" 30 = 1705708800000 + 30 * 3600000 ∧
    computeExpiresAt 1705708800000 "Days" 30 = 1705708800000 + 30 * msPerDay ∧
    computeExpiresAt 1705708800000 "Weeks" 30 = 1705708800000 + 30 * 7 * msPerDay ∧
    civilOfMs (computeExpiresAt 1705708800000 "Days" 30) =
      civilOfDayNumber (dayNumber (civilOfMs 1705708800000) + 30) ∧
    civilOfMs (computeExpiresAt 1705708800000 "Weeks" 30) =
      civilOfDayNumber (dayNumber (civilOfMs 1705708800000) + 30 * 7)) ∧
    civilOfMs 1705708800000 = ⟨2024, 1, 20⟩ ∧
    civilOfMs (computeExpiresAt 1705708800000 "Days" 30) = ⟨2024, 2, 19⟩ :=
  ⟨c4_calendarExpiry 1705708800000 30 (by decide) (by decide), by decide, by decide⟩

/-- C5 counterexample: with the unrecognized unit `"Months"` the creation
does not fail at all — the submission succeeds and transmits a request whose
expiry equals the creation instant (`new Date()` left unmodified), refuting
that an unrecognized unit fails with an `InvalidExpirationUnit` error. -/
theorem c5_counterexample :
    createShare (fun _ _ => ⟨"ct", "iv", "tg"⟩) (fun _ => "hh")
      (List.replicate 16 171) 1700000000000 "https://app" "id1"
      ⟨some "hello", some 6, some 6, some "Months"⟩ =
    Except.ok (⟨"ct", "iv", "tg", "hh", some 1700000000000, 6⟩,
      "https://app/shared/secret/id1?key=hh-abababababababababababababababab") := rfl

/-- C5 amended: for every unit string outside
`{Minutes, Hours, Days, Weeks}`, the unit lookup finds no action, the update
is silently skipped, and the expiry remains the creation instant `now`; no
error of any kind is raised. -/
theorem c5_amended_unrecognizedUnit (now : Nat) (unit : String) (v : Nat)
    (hu : unit ∉ ["Minutes", "Hours", "Days", "Weeks"]) :
    computeExpiresAt now unit v = now := by
  simp only [List.mem_cons, List.not_mem_nil, or_false, not_or] at hu
  have hfind : expirationUnitsAndActions.find? (fun a => a.unit == unit) = none := by
    rw [List.find?_eq_none]
    intro a ha
    simp only [expirationUnitsAndActions, List.mem_cons, List.not_mem_nil, or_false] at ha
    rcases ha with h | h | h | h <;> subst h <;>
      simp only [beq_eq_false_iff_ne, ne_eq]
    · exact fun hh => hu.1 (eq_of_beq hh).symm
    · exact fun hh => hu.2.1 (eq_of_beq hh).symm
    · exact fun hh => hu.2.2.1 (eq_of_beq hh).symm
    · exact fun hh => hu.2.2.2 (eq_of_beq hh).symm
  simp [computeExpiresAt, hfind]

/-- Witness for the amended C5 at a concrete unrecognized unit. -/
theorem c5_amended_unrecognizedUnit_witness :
    computeExpiresAt 1700000000000 "Months" 6 = 1700000000000 :=
  c5_amended_unrecognizedUnit 1700000000000 "Months" 6 (by decide)

/-- C8: the expiry computation refines a pure mapping from enum variant to
calendar-arithmetic function: for every positive value it returns exactly
`pureExpiry now u v`, a new time value computed from `(now, unit, value)`
alone — the freshly allocated date is threaded as an explicit value, so no
shared date object is mutated. -/
theorem c8_pureDispatch (now v : Nat) (u : ExpirationUnit) (hv : 1 ≤ v) :
    computeExpiresAt now (ExpirationUnit.name u) v = pureExpiry now u v := by
  have hv0 : v ≠ 0 := by omega
  cases u <;> exact if_pos hv0

/-- Witness for C8 at concrete inputs. -/
theorem c8_pureDispatch_witness :
    computeExpiresAt 1700000000000 (ExpirationUnit.name ExpirationUnit.days) 6 =
      pureExpiry 1700000000000 ExpirationUnit.days 6 :=
  c8_pureDispatch 1700000000000 6 ExpirationUnit.days (by decide)

/-- Inversion of a successful `checkValue`: the field was present, nonempty
and within the 10000-character cap. -/
theorem checkValue_ok_inv (o : Option String) (s : String) (h : checkValue o = .ok s) :
    o = some s ∧ s ≠ "" ∧ s.length ≤ 10000 := by
  cases o with
  | none => exact Except.noConfusion h
  | some s0 =>
    simp only [checkValue] at h
    by_cases hA : 10000 < s0.length
    · rw [if_pos hA] at h
      exact Except.noConfusion h
    · rw [if_neg hA] at h
      by_cases hB : s0 = ""
      · rw [if_pos hB] at h
        exact Except.noConfusion h
      · rw [if_neg hB] at h
        injection h with h
        subst h
        exact ⟨rfl, hB, Nat.not_lt.mp hA⟩

/-- Inversion of a successful `checkViews`: the field was present and at
least 1. -/
theorem checkViews_ok_inv (o : Option Int) (n : Int) (h : checkViews o = .ok n) :
    o = some n ∧ 1 ≤ n := by
  cases o with
  | none => exact Except.noConfusion h
  | some n0 =>
    simp only [checkViews] at h
    by_cases hA : n0 < 1
    · rw [if_pos hA] at h
      exact Except.noConfusion h
    · rw [if_neg hA] at h
      injection h with h
      subst h
      exact ⟨rfl, Int.not_lt.mp hA⟩

/-- Inversion of a successful `checkExpiresInValue`. -/
theorem checkExpiresInValue_ok_inv (o : Option Int) (n : Int)
    (h : checkExpiresInValue o = .ok n) : o = some n ∧ 1 ≤ n := by
  cases o with
  | none => exact Except.noConfusion h
  | some n0 =>
    simp only [checkExpiresInValue] at h
    by_cases hA : n0 < 1
    · rw [if_pos hA] at h
      exact Except.noConfusion h
    · rw [if_neg hA] at h
      injection h with h
      subst h
      exact ⟨rfl, Int.not_lt.mp hA⟩

/-- An absent or non-positive `expiresInValue` always fails its check with
the expiration-value error. -/
theorem checkExpiresInValue_bad (o : Option Int) (hbad : ∀ n, o = some n → n < 1) :
    checkExpiresInValue o = .error .invalidExpirationValue := by
  cases o with
  | none => rfl
  | some n => simp only [checkExpiresInValue, if_pos (hbad n rfl)]

/-- C7: a plaintext longer than 10000 characters is rejected by the schema
with the length validation error — and the outcome is independent of the
encryption, hashing, randomness, clock and identifiers, so no encryption is
performed — while a plaintext of at most 10000 characters is never rejected
by the length check. -/
theorem c7_plaintextLimit (enc enc' : String → String → EncryptedPayload)
    (h h' : String → String) (bytes bytes' : List Nat) (now now' : Nat)
    (origin origin' id id' : String) (input : FormInput) (s : String)
    (hs : input.value = some s) :
    (10000 < s.length →
      createShare enc h bytes now origin id input =
        Except.error ValidationError.valueTooLong ∧
      createShare enc h bytes now origin id input =
        createShare enc' h' bytes' now' origin' id' input) ∧
    (s.length ≤ 10000 →
      checkValue input.value ≠ Except.error ValidationError.valueTooLong) := by
  constructor
  · intro hlong
    have hcv : checkValue input.value = .error .valueTooLong := by
      rw [hs]
      simp only [checkValue, if_pos hlong]
    constructor
    · simp only [createShare, validate, hcv]
      rfl
    · simp only [createShare, validate, hcv]
      rfl
  · intro hle
    rw [hs]
    simp only [checkValue, if_neg (Nat.not_lt.mpr hle)]
    by_cases hB : s = ""
    · rw [if_pos hB]
      simp
    · rw [if_neg hB]
      simp

/-- Witness for C7 at two concrete inputs: a 10001-character plaintext is
rejected before encryption, and a short plaintext passes the length check. -/
theorem c7_plaintextLimit_witness :
    ((10000 < (String.mk (List.replicate 10001 'a')).length →
      createShare (fun _ _ => ⟨"ct", "iv", "tg"⟩) (fun _ => "hh") (List.replicate 16 1)
          1700000000000 "https://a" "i1"
          ⟨some (String.mk (List.replicate 10001 'a')), some 6, some 6, some "Minutes"⟩ =
        Except.error ValidationError.valueTooLong ∧
      createShare (fun _ _ => ⟨"ct", "iv", "tg"⟩) (fun _ => "hh") (List.replicate 16 1)
          1700000000000 "https://a" "i1"
          ⟨some (String.mk (List.replicate 10001 'a')), some 6, some 6, some "Minutes"⟩ =
        createShare (fun _ _ => ⟨"x", "y", "z"⟩) (fun _ => "k") (List.replicate 16 2)
          1 "https://b" "i2"
          ⟨some (String.mk (List.replicate 10001 'a')), some 6, some 6, some "Minutes"⟩) ∧
    ((String.mk (List.replicate 10001 'a')).length ≤ 10000 →
      checkValue (some (String.mk (List.replicate 10001 'a'))) ≠
        Except.error ValidationError.valueTooLong)) ∧
    ((10000 < ("hi" : String).length →
      createShare (fun _ _ => ⟨"ct", "iv", "tg"⟩) (fun _ => "hh") (List.replicate 16 1)
          1700000000000 "https://a" "i1" ⟨some "hi", some 6, some 6, some "Minutes"⟩ =
        Except.error ValidationError.valueTooLong ∧
      createShare (fun _ _ => ⟨"ct", "iv", "tg"⟩) (fun _ => "hh") (List.replicate 16 1)
          1700000000000 "https://a" "i1" ⟨some "hi", some 6, some 6, some "Minutes"⟩ =
        createShare (fun _ _ => ⟨"x", "y", "z"⟩) (fun _ => "k") (List.replicate 16 2)
          1 "https://b" "i2" ⟨some "hi", some 6, some 6, some "Minutes"⟩) ∧
    (("hi" : String).length ≤ 10000 →
      checkValue (some "hi") ≠ Except.error ValidationError.valueTooLong)) :=
  ⟨c7_plaintextLimit (fun _ _ => ⟨"ct", "iv", "tg"⟩) (fun _ _ => ⟨"x", "y", "z"⟩)
      (fun _ => "hh") (fun _ => "k") (List.replicate 16 1) (List.replicate 16 2)
      1700000000000 1 "https://a" "https://b" "i1" "i2"
      ⟨some (String.mk (List.replicate 10001 'a')), some 6, some 6, some "Minutes"⟩
      (String.mk (List.replicate 10001 'a')) rfl,
   c7_plaintextLimit (fun _ _ => ⟨"ct", "iv", "tg"⟩) (fun _ _ => ⟨"x", "y", "z"⟩)
      (fun _ => "hh") (fun _ => "k") (List.replicate 16 1) (List.replicate 16 2)
      1700000000000 1 "https://a" "https://b" "i1" "i2"
      ⟨some "hi", some 6, some 6, some "Minutes"⟩ "hi" rfl⟩

/-- C6: when `expiresInValue` is absent or non-positive the creation
interface never yields any record — no `expiresAt = null` path exists here,
since there is no pure view-count choice in this form — and whenever the
preceding field checks pass, the reported failure is precisely the
expiration-value validation error. -/
theorem c6_invalidExpirationValue (enc : String → String → EncryptedPayload)
    (h : String → String) (bytes : List Nat) (now : Nat) (origin id : String)
    (input : FormInput) (hbad : ∀ n, input.expiresInValue = some n → n < 1) :
    (∃ e, createShare enc h bytes now origin id input = Except.error e) ∧
    (∀ s views, checkValue input.value = Except.ok s →
      checkViews input.expiresAfterViews = Except.ok views →
      createShare enc h bytes now origin id input =
        Except.error ValidationError.invalidExpirationValue) := by
  have hev := checkExpiresInValue_bad input.expiresInValue hbad
  constructor
  · cases hcv : checkValue input.value with
    | error e =>
      refine ⟨e, ?_⟩
      simp only [createShare, validate, hcv]
      rfl
    | ok s =>
      cases hcw : checkViews input.expiresAfterViews with
      | error e =>
        refine ⟨e, ?_⟩
        simp only [createShare, validate, hcv, hcw]
        rfl
      | ok n =>
        refine ⟨.invalidExpirationValue, ?_⟩
        simp only [createShare, validate, hcv, hcw, hev]
        rfl
  · intro s views hcv hcw
    simp only [createShare, validate, hcv, hcw, hev]
    rfl

/-- Witness for C6 at a concrete input with `expiresInValue = 0`. -/
theorem c6_invalidExpirationValue_witness :
    (∃ e, createShare (fun _ _ => ⟨"ct", "iv", "tg"⟩) (fun _ => "hh")
        (List.replicate 16 1) 1700000000000 "https://a" "i1"
        ⟨some "hello", some 6, some 0, some "Minutes"⟩ = Except.error e) ∧
    (∀ s views, checkValue (some "hello") = Except.ok s →
      checkViews (some 6) = Except.ok views →
      createShare (fun _ _ => ⟨"ct", "iv", "tg"⟩) (fun _ => "hh")
          (List.replicate 16 1) 1700000000000 "https://a" "i1"
          ⟨some "hello", some 6, some 0, some "Minutes"⟩ =
        Except.error ValidationError.invalidExpirationValue) :=
  c6_invalidExpirationValue (fun _ _ => ⟨"ct", "iv", "tg"⟩) (fun _ => "hh")
    (List.replicate 16 1) 1700000000000 "https://a" "i1"
    ⟨some "hello", some 6, some 0, some "Minutes"⟩
    (by intro n hn; injection hn with hn; omega)

/-- C10: every record created through this interface carries both limits.
A successful creation implies the submitted form had
`expiresAfterViews ≥ 1` and `expiresInValue ≥ 1`, the transmitted view limit
is at least 1, and the transmitted `expiresAt` is a concrete (non-null)
timestamp, even though the request type declares the field nullable. -/
theorem c10_bothLimits (enc : String → String → EncryptedPayload)
    (h : String → String) (bytes : List Nat) (now : Nat) (origin id : String)
    (input : FormInput) (req : CreateSharedSecretRequest) (link : String)
    (hok : createShare enc h bytes now origin id input = Except.ok (req, link)) :
    1 ≤ req.expiresAfterViews ∧ (∃ t, req.expiresAt = some t) ∧
    (∃ n, input.expiresAfterViews = some n ∧ 1 ≤ n) ∧
    (∃ n, input.expiresInValue = some n ∧ 1 ≤ n) := by
  cases hcv : checkValue input.value with
  | error e =>
    simp only [createShare, validate, Except.map, hcv] at hok
    exact Except.noConfusion hok
  | ok s =>
    cases hcw : checkViews input.expiresAfterViews with
    | error e =>
      simp only [createShare, validate, Except.map, hcv, hcw] at hok
      exact Except.noConfusion hok
    | ok views =>
      cases hce : checkExpiresInValue input.expiresInValue with
      | error e =>
        simp only [createShare, validate, Except.map, hcv, hcw, hce] at hok
        exact Except.noConfusion hok
      | ok ev =>
        cases hcu : checkUnit input.expiresInUnit with
        | error e =>
          simp only [createShare, validate, Except.map, hcv, hcw, hce, hcu] at hok
          exact Except.noConfusion hok
        | ok u =>
          simp only [createShare, validate, Except.map, hcv, hcw, hce, hcu] at hok
          injection hok with hok
          have hreq : req = (onFormSubmit enc h bytes now origin id ⟨s, views, ev, u⟩).1 := by
            rw [hok]
          obtain ⟨hw1, hw2⟩ := checkViews_ok_inv input.expiresAfterViews views hcw
          obtain ⟨he1, he2⟩ := checkExpiresInValue_ok_inv input.expiresInValue ev hce
          refine ⟨?_, ?_, ⟨views, hw1, hw2⟩, ⟨ev, he1, he2⟩⟩
          · rw [hreq]
            exact hw2
          · rw [hreq]
            exact ⟨_, rfl⟩

/-- Witness for C10 at a concrete successful creation. -/
theorem c10_bothLimits_witness :
    1 ≤ (⟨"ct", "iv", "tg", "hh", some 1700000360000,
          6⟩ : CreateSharedSecretRequest).expiresAfterViews ∧
    (∃ t, (⟨"ct", "iv", "tg", "hh", some 1700000360000,
          6⟩ : CreateSharedSecretRequest).expiresAt = some t) ∧
    (∃ n, (⟨some "hello", some 6, some 6, some "Minutes"⟩ : FormInput).expiresAfterViews =
        some n ∧ 1 ≤ n) ∧
    (∃ n, (⟨some "hello", some 6, some 6, some "Minutes"⟩ : FormInput).expiresInValue =
        some n ∧ 1 ≤ n) :=
  c10_bothLimits (fun _ _ => ⟨"ct", "iv", "tg"⟩) (fun _ => "hh")
    (List.replicate 16 1) 1700000000000 "https://a" "i1"
    ⟨some "hello", some 6, some 6, some "Minutes"⟩
    ⟨"ct", "iv", "tg", "hh", some 1700000360000, 6⟩
    ("https://a/shared/secret/i1?key=hh-" ++ hexEncode (List.replicate 16 1))
    (by rfl)

/-- A record whose status is not ACTIVE can never be redeemed. -/
theorem redeem_inactive (now : Nat) (sv : String) (r : ShareRecord)
    (hst : r.status ≠ .active) :
    redeem now sv r = .error .expiredOrExhausted := by
  simp only [redeem]
  rw [if_pos hst]

/-- One redemption of an ACTIVE, unexpired, verifier-matching record with
`maxViews = N` succeeds and increments the count, transitioning to EXHAUSTED
exactly when the new count reaches `N`. -/
theorem redeem_active (now : Nat) (sv : String) (r : ShareRecord) (N : Nat)
    (hst : r.status = .active) (hexp : ∀ t, r.expiresAt = some t → now ≤ t)
    (hver : sv = r.verifier) (hmax : r.maxViews = some N) :
    redeem now sv r = .ok (r, { r with
      viewsConsumed := r.viewsConsumed + 1,
      status := if N ≤ r.viewsConsumed + 1 then SecretStatus.exhausted else SecretStatus.active }) := by
  have h1 : ¬ (r.status ≠ SecretStatus.active) := by simp [hst]
  have h2 : isPastExpiry now r.expiresAt = false := by
    cases hE : r.expiresAt with
    | none => rfl
    | some t =>
      simp only [isPastExpiry, decide_eq_false_iff_not]
      exact Nat.not_lt.mpr (hexp t hE)
  have h3 : ¬ (sv ≠ r.verifier) := by simp [hver]
  simp only [redeem, if_neg h1, h2, Bool.false_eq_true, if_false, if_neg h3, hmax]

/-- Sequential runs compose: `j + k` attempts are `j` attempts followed by
`k` attempts from the resulting state, with successes adding up. -/
theorem runRedemptions_add (now : Nat) (sv : String) (j k : Nat) :
    ∀ r, runRedemptions now sv (j + k) r =
      ((runRedemptions now sv j r).1 +
        (runRedemptions now sv k (runRedemptions now sv j r).2).1,
       (runRedemptions now sv k (runRedemptions now sv j r).2).2) := by
  induction j with
  | zero =>
    intro r
    simp [runRedemptions]
  | succ j' ih =>
    intro r
    have hj : j' + 1 + k = (j' + k) + 1 := by omega
    rw [hj]
    simp only [runRedemptions]
    cases hred : redeem now sv r with
    | ok p =>
      simp only [ih p.2, Prod.mk.injEq]
      refine ⟨by omega, trivial⟩
    | error e =>
      simp only [ih r, Prod.mk.injEq]

/-- Invariant of repeated redemption of an ACTIVE record with
`maxViews = N`: as long as the budget suffices (`c + k ≤ N`), all `k`
attempts succeed, the count advances to `c + k` and the status is EXHAUSTED
precisely when at least one attempt ran and the budget is spent. -/
theorem runRedemptions_active (now : Nat) (sv : String) (N : Nat) :
    ∀ k c r, r.status = SecretStatus.active →
      (∀ t, r.expiresAt = some t → now ≤ t) → sv = r.verifier →
      r.maxViews = some N → r.viewsConsumed = c → c + k ≤ N →
      (runRedemptions now sv k r).1 = k ∧
      (runRedemptions now sv k r).2.viewsConsumed = c + k ∧
      (runRedemptions now sv k r).2.status =
        (if 0 < k ∧ c + k = N then SecretStatus.exhausted else SecretStatus.active) := by
  intro k
  induction k with
  | zero =>
    intro c r hst hexp hver hmax hc hle
    refine ⟨rfl, ?_, ?_⟩
    · simpa [runRedemptions] using hc
    · simpa [runRedemptions] using hst
  | succ k' ih =>
    intro c r hst hexp hver hmax hc hle
    have hstep := redeem_active now sv r N hst hexp hver hmax
    simp only [runRedemptions, hstep]
    rcases Nat.lt_or_ge (c + 1) N with hlt | hge
    · have hr1st : ({ r with viewsConsumed := r.viewsConsumed + 1, status := (if N ≤ r.viewsConsumed + 1 then SecretStatus.exhausted else SecretStatus.active) } : ShareRecord).status = SecretStatus.active := by
        show (if N ≤ r.viewsConsumed + 1 then SecretStatus.exhausted else SecretStatus.active) = _
        rw [hc]
        exact if_neg (by omega)
      obtain ⟨ih1, ih2, ih3⟩ := ih (c + 1)
        { r with viewsConsumed := r.viewsConsumed + 1, status := (if N ≤ r.viewsConsumed + 1 then SecretStatus.exhausted else SecretStatus.active) }
        hr1st hexp hver hmax (by show r.viewsConsumed + 1 = c + 1; omega) (by omega)
      refine ⟨by rw [ih1], by rw [ih2]; omega, ?_⟩
      rw [ih3]
      have hcond : (0 < k' ∧ c + 1 + k' = N) ↔ (0 < k' + 1 ∧ c + (k' + 1) = N) := by
        omega
      rw [if_congr hcond rfl rfl]
    · have hk0 : k' = 0 := by omega
      subst hk0
      have hstat : ({ r with viewsConsumed := r.viewsConsumed + 1, status := (if N ≤ r.viewsConsumed + 1 then SecretStatus.exhausted else SecretStatus.active) } : ShareRecord).status = SecretStatus.exhausted := by
        show (if N ≤ r.viewsConsumed + 1 then SecretStatus.exhausted else SecretStatus.active) = _
        rw [hc]
        exact if_pos (by omega)
      refine ⟨rfl, by show r.viewsConsumed + 1 = c + (0 + 1); omega, ?_⟩
      show ({ r with viewsConsumed := r.viewsConsumed + 1, status := (if N ≤ r.viewsConsumed + 1 then SecretStatus.exhausted else SecretStatus.active) } : ShareRecord).status = _
      rw [hstat]
      exact (if_pos ⟨by omega, by omega⟩).symm

/-- C9: for an ACTIVE, unexpired, verifier-matching record with
`maxViews = N ≥ 1` and no views consumed, `N` redemptions all succeed and
leave the record EXHAUSTED, the `(N+1)`-th attempt fails with the
consumption error, and a serialisation of `N+1` attempts — to which any
concurrent interleaving is equivalent, the spec requiring each `redeem` to
be one linearizable atomic step — yields exactly `N` successes; with `N = 1`
two racing redemptions can never both succeed. -/
theorem c9_viewLimit (now : Nat) (sv : String) (N : Nat) (r : ShareRecord)
    (hst : r.status = .active) (hc0 : r.viewsConsumed = 0) (hmax : r.maxViews = some N)
    (hver : sv = r.verifier) (hexp : ∀ t, r.expiresAt = some t → now ≤ t)
    (hN : 1 ≤ N) :
    (runRedemptions now sv N r).1 = N ∧
    (runRedemptions now sv N r).2.status = SecretStatus.exhausted ∧
    redeem now sv (runRedemptions now sv N r).2 =
      .error RedemptionFailure.expiredOrExhausted ∧
    (runRedemptions now sv (N + 1) r).1 = N := by
  obtain ⟨h1, h2, h3⟩ :=
    runRedemptions_active now sv N N 0 r hst hexp hver hmax hc0 (by omega)
  have hstat : (runRedemptions now sv N r).2.status = SecretStatus.exhausted := by
    rw [h3]
    exact if_pos ⟨by omega, by omega⟩
  have hfail : redeem now sv (runRedemptions now sv N r).2 =
      .error RedemptionFailure.expiredOrExhausted := by
    apply redeem_inactive
    rw [hstat]
    simp
  refine ⟨h1, hstat, hfail, ?_⟩
  rw [runRedemptions_add now sv N 1]
  have hone : (runRedemptions now sv 1 (runRedemptions now sv N r).2).1 = 0 := by
    simp [runRedemptions, hfail]
  simp only [hone, h1]
  omega

/-- Witness for C9 at a concrete `maxViews = 1` record: of two serialised
redemption attempts exactly one succeeds. -/
theorem c9_viewLimit_witness :
    (runRedemptions 0 "v" 1 ⟨"v", none, some 1, 0, .active⟩).1 = 1 ∧
    (runRedemptions 0 "v" 1 ⟨"v", none, some 1, 0, .active⟩).2.status =
      SecretStatus.exhausted ∧
    redeem 0 "v" (runRedemptions 0 "v" 1 ⟨"v", none, some 1, 0, .active⟩).2 =
      .error RedemptionFailure.expiredOrExhausted ∧
    (runRedemptions 0 "v" 2 ⟨"v", none, some 1, 0, .active⟩).1 = 1 :=
  c9_viewLimit 0 "v" 1 ⟨"v", none, some 1, 0, .active⟩ rfl rfl rfl rfl
    (by intro t ht; cases ht) (by decide)
